import Mathlib

/-!
Verification development for the `aws-in-a-box` repository (Go).

We shallowly embed the parts of the source that the checked properties are
about:

* `cmd` (the unnamed `main` file): the HTTP dispatcher loop, the method
  registry and the Kinesis startup sequence;
* `services/kinesis/http.go`: handler registration for the Kinesis service;
* `services/s3/s3.go`: the complete S3 engine (buckets, objects, tagging,
  multipart uploads).

Go strings are modelled as `List Char` (`GoStr`), byte slices as `List Nat`
(`Bytes`), Go maps as association lists, and Go pointers (`*Object`) by an
explicit heap of object ids, so that aliasing behaves exactly as in Go.
The external MD5 primitive is modelled as an abstract function parameter;
no property below depends on its internals.  UUID generation is modelled by
passing the freshly generated value as an explicit argument.
-/

/-- Go strings, modelled as lists of characters. -/

abbrev GoStr := List Char

/-- Go byte slices, modelled as lists of naturals (each < 256 in practice). -/

abbrev Bytes := List Nat

/-- Convert a Lean string literal into the Go-string model. -/

def str (s : String) : GoStr := s.data

/-- Lookup in an association list (model of Go map read `m[k]`). -/

def alookup {α β : Type} [DecidableEq α] (k : α) : List (α × β) → Option β
  | [] => none
  | (a, b) :: t => if a = k then some b else alookup k t

/-- Update/insert in an association list (model of Go map write `m[k] = v`). -/

def aset {α β : Type} [DecidableEq α] (k : α) (v : β) : List (α × β) → List (α × β)
  | [] => [(k, v)]
  | (a, b) :: t => if a = k then (k, v) :: t else (a, b) :: aset k v t

/-- Remove a key from an association list (model of Go `delete(m, k)`). -/

def aremove {α β : Type} [DecidableEq α] (k : α) : List (α × β) → List (α × β)
  | [] => []
  | (a, b) :: t => if a = k then aremove k t else (a, b) :: aremove k t

/-- Model of Go `strings.Split(s, sep)` for a one-character separator:
splits around every occurrence, keeping empty pieces; `Split("", sep)`
returns `[""]`. -/

def splitChar (c : Char) : GoStr → List GoStr
  | [] => [[]]
  | x :: xs =>
    if x = c then [] :: splitChar c xs
    else
      match splitChar c xs with
      | [] => [[x]]
      | h :: t => (x :: h) :: t

/-- Model of Go `strings.SplitN(s, sep, n)` for a one-character separator and
`n > 0`: at most `n` pieces, the last piece keeps any remaining separators. -/

def splitN (c : Char) (n : Nat) (s : GoStr) : List GoStr :=
  match n with
  | 0 => []
  | 1 => [s]
  | Nat.succ m =>
    match s with
    | [] => [[]]
    | x :: xs =>
      if x = c then [] :: splitN c m xs
      else
        match splitN c (Nat.succ m) xs with
        | [] => [[x]]
        | h :: t => (x :: h) :: t

/-- One nibble as a lowercase hex character (model of `encoding/hex`). -/

def hexDigit (n : Nat) : Char :=
  if n < 10 then Char.ofNat (48 + n) else Char.ofNat (87 + n)

/-- Model of Go `hex.EncodeToString`: two lowercase hex digits per byte,
high nibble first. -/

def hexEncodeToString (b : Bytes) : GoStr :=
  b.flatMap (fun x => [hexDigit (x % 256 / 16), hexDigit (x % 16)])

/-- Value of a hex digit character (model of `encoding/hex` decoding). -/

def hexVal (c : Char) : Option Nat :=
  if '0' ≤ c ∧ c ≤ '9' then some (c.toNat - 48)
  else if 'a' ≤ c ∧ c ≤ 'f' then some (c.toNat - 87)
  else if 'A' ≤ c ∧ c ≤ 'F' then some (c.toNat - 55)
  else none

/-- Model of Go `url.PathUnescape`: decodes every `%XX` escape, errors on a
malformed escape, leaves all other characters unchanged. -/

def pathUnescape : GoStr → Option GoStr
  | [] => some []
  | x :: xs =>
    if x = '%' then
      match xs with
      | a :: b :: rest =>
        match hexVal a, hexVal b with
        | some v1, some v2 => (pathUnescape rest).map (Char.ofNat (16 * v1 + v2) :: ·)
        | _, _ => none
      | _ => none
    else (pathUnescape xs).map (x :: ·)

/- ------------------------------------------------------------------
The S3 engine (`services/s3/s3.go`).

Go's `*Object` pointers are modelled by an explicit heap mapping object
ids (`Nat`) to `Object` values; a bucket maps keys to object ids, so two
map entries holding the same pointer are two entries holding the same id.
------------------------------------------------------------------ -/

/-- `type Object struct` of `s3.go`. -/

structure Object where
  Data : Bytes
  MD5 : Bytes
  ContentType : GoStr
  Tagging : GoStr
  ServerSideEncryption : GoStr
  SSECustomerAlgorithm : GoStr
  SSECustomerKey : GoStr
  SSEKMSKeyId : GoStr
  SSEKMSEncryptionContext : GoStr
deriving DecidableEq

/-- The zero value of `Object` (all fields Go zero values; `MD5` is the zero
`[16]byte`). -/

def Object.zero : Object :=
  { Data := [], MD5 := List.replicate 16 0, ContentType := [], Tagging := [],
    ServerSideEncryption := [], SSECustomerAlgorithm := [], SSECustomerKey := [],
    SSEKMSKeyId := [], SSEKMSEncryptionContext := [] }

/-- `type Part struct` of `s3.go` (named `S3Part` here to avoid clashing
with the library). -/

structure S3Part where
  Data : Bytes
  MD5 : Bytes
deriving DecidableEq

/-- `type multipartUpload struct` of `s3.go`. -/

structure MultipartUpload where
  Bucket : GoStr
  Key : GoStr
  Parts : List (Int × S3Part)
  Object : Object
deriving DecidableEq

/-- `type S3 struct` of `s3.go`: `heap`/`nextId` model the Go heap of
`*Object` allocations, `buckets` maps bucket name to (key ↦ object id). -/

structure S3State where
  addr : GoStr
  heap : List (Nat × Object)
  nextId : Nat
  buckets : List (GoStr × List (GoStr × Nat))
  multipartUploads : List (GoStr × MultipartUpload)
deriving DecidableEq

/-- `awserrors.Error`, kept abstract as the message passed to the
`XXX_TODO` placeholder constructor. -/

structure AwsError where
  message : GoStr
deriving DecidableEq

/-- `awserrors.XXX_TODO`. -/

def XXX_TODO (msg : String) : AwsError := ⟨str msg⟩

/-- The empty S3 engine produced by `s3.New(addr)`. -/

def S3.new (addr : GoStr) : S3State :=
  { addr := addr, heap := [], nextId := 0, buckets := [], multipartUploads := [] }

structure CreateBucketInput where
  Bucket : GoStr
deriving DecidableEq

structure CreateBucketOutput where
  Location : GoStr
deriving DecidableEq

/-- `S3.CreateBucket`. -/

def createBucket (s : S3State) (input : CreateBucketInput) :
    S3State × Except AwsError CreateBucketOutput :=
  match alookup input.Bucket s.buckets with
  | some _ => (s, .error (XXX_TODO "bucket already exists"))
  | none =>
    ({ s with buckets := aset input.Bucket [] s.buckets },
     .ok { Location := '/' :: input.Bucket })

/-- `S3.GetObject`.  The Go function returns the stored `*Object` pointer;
the model returns the stored object id. -/

def getObject (s : S3State) (bucket key : GoStr) :
    S3State × Except AwsError Nat :=
  match alookup bucket s.buckets with
  | none => (s, .error (XXX_TODO "no bucket"))
  | some b =>
    match alookup key b with
    | none => (s, .error (XXX_TODO "no item"))
    | some objId => (s, .ok objId)

structure PutObjectInput where
  Bucket : GoStr
  Key : GoStr
  Data : Bytes
  ContentType : GoStr
  Tagging : GoStr
  ServerSideEncryption : GoStr
  SSEKMSKeyId : GoStr
  SSECustomerAlgorithm : GoStr
  SSECustomerKey : GoStr
  SSEKMSEncryptionContext : GoStr
deriving DecidableEq

structure PutObjectOutput where
  Etag : GoStr
  SSECustomerAlgorithm : GoStr
  SSEKMSKeyId : GoStr
  SSEKMSEncryptionContext : GoStr
deriving DecidableEq

/-- `S3.PutObject`; `md5fn` models the external `crypto/md5` primitive. -/

def putObject (md5fn : Bytes → Bytes) (s : S3State) (input : PutObjectInput) :
    S3State × Except AwsError PutObjectOutput :=
  match alookup input.Bucket s.buckets with
  | none => (s, .error (XXX_TODO "no bucket"))
  | some b =>
    let object : Object :=
      { Data := input.Data, MD5 := md5fn input.Data, ContentType := input.ContentType,
        Tagging := input.Tagging, ServerSideEncryption := input.ServerSideEncryption,
        SSEKMSKeyId := input.SSEKMSKeyId, SSECustomerAlgorithm := input.SSECustomerAlgorithm,
        SSECustomerKey := input.SSECustomerKey, SSEKMSEncryptionContext := [] }
    let objId := s.nextId
    ({ s with heap := aset objId object s.heap, nextId := objId + 1,
              buckets := aset input.Bucket (aset input.Key objId b) s.buckets },
     .ok { Etag := hexEncodeToString object.MD5,
           SSECustomerAlgorithm := input.SSECustomerAlgorithm,
           SSEKMSKeyId := input.SSEKMSKeyId,
           SSEKMSEncryptionContext := input.SSEKMSEncryptionContext })

structure CopyObjectInput where
  Bucket : GoStr
  Key : GoStr
  CopySource : GoStr
  MetadataDirective : GoStr
  TaggingDirective : GoStr
  Tagging : GoStr
  ContentType : GoStr
  ServerSideEncryption : GoStr
  SSEKMSKeyId : GoStr
  SSECustomerAlgorithm : GoStr
  SSECustomerKey : GoStr
deriving DecidableEq

structure CopyObjectOutput where
  LastModified : GoStr
  ETag : GoStr
deriving DecidableEq

/-- `S3.CopyObject`; `now` models `time.Now()` already formatted.  Note that
on the `MetadataDirective == "REPLACE"` path the Go code assigns through the
source `*Object` pointer, and then stores the *same* pointer in the
destination bucket. -/

def copyObject (now : GoStr) (s : S3State) (input : CopyObjectInput) :
    S3State × Except AwsError CopyObjectOutput :=
  match pathUnescape input.CopySource with
  | none => (s, .error (XXX_TODO "unescape error"))
  | some copySource =>
    match splitN '/' 3 copySource with
    | _ :: sourceBucket :: sourceKey :: _ =>
      (match alookup sourceBucket s.buckets with
       | none => (s, .error (XXX_TODO "no bucket"))
       | some srcB =>
         match alookup sourceKey srcB with
         | none => (s, .error (XXX_TODO "no source item"))
         | some objId =>
           match alookup objId s.heap with
           | none => (s, .error (XXX_TODO "dangling pointer"))
           | some obj0 =>
             let obj1 :=
               if input.MetadataDirective = str "REPLACE" then
                 { obj0 with ContentType := input.ContentType,
                             ServerSideEncryption := input.ServerSideEncryption,
                             SSEKMSKeyId := input.SSEKMSKeyId,
                             SSECustomerAlgorithm := input.SSECustomerAlgorithm,
                             SSECustomerKey := input.SSECustomerKey }
               else obj0
             let obj2 :=
               if input.TaggingDirective = str "REPLACE" then
                 { obj1 with Tagging := input.Tagging }
               else obj1
             let s1 := { s with heap := aset objId obj2 s.heap }
             match alookup input.Bucket s1.buckets with
             | none => (s1, .error (XXX_TODO "no bucket"))
             | some destB =>
               ({ s1 with buckets := aset input.Bucket (aset input.Key objId destB) s1.buckets },
                .ok { LastModified := now, ETag := hexEncodeToString obj2.MD5 }))
    | _ => (s, .error (XXX_TODO "panic: index out of range"))

structure DeleteObjectInput where
  Bucket : GoStr
  Key : GoStr
deriving DecidableEq

/-- `S3.DeleteObject` (returns `(nil, nil)` on success). -/

def deleteObject (s : S3State) (input : DeleteObjectInput) :
    S3State × Except AwsError Unit :=
  match alookup input.Bucket s.buckets with
  | none => (s, .error (XXX_TODO "no bucket"))
  | some b =>
    match alookup input.Key b with
    | none => (s, .error (XXX_TODO "no item"))
    | some _ =>
      ({ s with buckets := aset input.Bucket (aremove input.Key b) s.buckets },
       .ok ())

structure APITag where
  Key : GoStr
  Value : GoStr
deriving DecidableEq

structure GetObjectTaggingInput where
  Bucket : GoStr
  Key : GoStr
deriving DecidableEq

structure GetObjectTaggingOutput where
  Tag : List APITag
deriving DecidableEq

/-- The per-piece loop of `S3.GetObjectTagging`: each `&`-separated piece is
split on `=` and must give exactly two components. -/

def parseTagList : List GoStr → Except AwsError (List APITag)
  | [] => .ok []
  | kv :: rest =>
    match splitChar '=' kv with
    | [k, v] =>
      match parseTagList rest with
      | .ok tags => .ok ({ Key := k, Value := v } :: tags)
      | .error e => .error e
    | _ => .error (XXX_TODO "invalid tagging")

/-- `S3.GetObjectTagging`: splits the stored `Tagging` string on `&`. -/

def getObjectTagging (s : S3State) (input : GetObjectTaggingInput) :
    S3State × Except AwsError GetObjectTaggingOutput :=
  match alookup input.Bucket s.buckets with
  | none => (s, .error (XXX_TODO "no bucket"))
  | some b =>
    match alookup input.Key b with
    | none => (s, .error (XXX_TODO "no item"))
    | some objId =>
      match alookup objId s.heap with
      | none => (s, .error (XXX_TODO "dangling pointer"))
      | some obj =>
        match parseTagList (splitChar '&' obj.Tagging) with
        | .ok tags => (s, .ok { Tag := tags })
        | .error e => (s, .error e)

structure PutObjectTaggingInput where
  Bucket : GoStr
  Key : GoStr
  Tag : List APITag
deriving DecidableEq

structure PutObjectTaggingOutput where
deriving DecidableEq

/-- The string-builder loop of `S3.PutObjectTagging`: `key=value` pieces
joined with `,` (no trailing separator). -/

def joinTags : List APITag → GoStr
  | [] => []
  | [t] => t.Key ++ ('=' :: t.Value)
  | t :: rest => t.Key ++ ('=' :: t.Value) ++ (',' :: joinTags rest)

/-- `S3.PutObjectTagging`: writes the joined string through the stored
`*Object` pointer. -/

def putObjectTagging (s : S3State) (input : PutObjectTaggingInput) :
    S3State × Except AwsError PutObjectTaggingOutput :=
  match alookup input.Bucket s.buckets with
  | none => (s, .error (XXX_TODO "no bucket"))
  | some b =>
    match alookup input.Key b with
    | none => (s, .error (XXX_TODO "no item"))
    | some objId =>
      match alookup objId s.heap with
      | none => (s, .error (XXX_TODO "dangling pointer"))
      | some obj =>
        ({ s with heap := aset objId { obj with Tagging := joinTags input.Tag } s.heap },
         .ok {})

structure DeleteObjectTaggingInput where
  Bucket : GoStr
  Key : GoStr
deriving DecidableEq

/-- `S3.DeleteObjectTagging`: clears `Tagging` through the stored pointer. -/

def deleteObjectTagging (s : S3State) (input : DeleteObjectTaggingInput) :
    S3State × Except AwsError Unit :=
  match alookup input.Bucket s.buckets with
  | none => (s, .error (XXX_TODO "no bucket"))
  | some b =>
    match alookup input.Key b with
    | none => (s, .error (XXX_TODO "no item"))
    | some objId =>
      match alookup objId s.heap with
      | none => (s, .error (XXX_TODO "dangling pointer"))
      | some obj =>
        ({ s with heap := aset objId { obj with Tagging := [] } s.heap }, .ok ())

structure CreateMultipartUploadInput where
  Bucket : GoStr
  Key : GoStr
  ContentType : GoStr
  ServerSideEncryption : GoStr
  SSEKMSKeyId : GoStr
  SSEKMSEncryptionContext : GoStr
deriving DecidableEq

structure CreateMultipartUploadOutput where
  Bucket : GoStr
  Key : GoStr
  UploadId : GoStr
deriving DecidableEq

/-- `S3.CreateMultipartUpload`; `uploadId` models the freshly generated
base64-encoded UUID v4. -/

def createMultipartUpload (uploadId : GoStr) (s : S3State)
    (input : CreateMultipartUploadInput) :
    S3State × Except AwsError CreateMultipartUploadOutput :=
  match alookup input.Bucket s.buckets with
  | none => (s, .error (XXX_TODO "no bucket"))
  | some _ =>
    let upload : MultipartUpload :=
      { Bucket := input.Bucket, Key := input.Key, Parts := [],
        Object := { Object.zero with
          ContentType := input.ContentType,
          ServerSideEncryption := input.ServerSideEncryption,
          SSEKMSKeyId := input.SSEKMSKeyId,
          SSEKMSEncryptionContext := input.SSEKMSEncryptionContext } }
    ({ s with multipartUploads := aset uploadId upload s.multipartUploads },
     .ok { Bucket := input.Bucket, Key := input.Key, UploadId := uploadId })

structure UploadPartInput where
  Bucket : GoStr
  Key : GoStr
  UploadId : GoStr
  PartNumber : Int
  Data : Bytes
deriving DecidableEq

structure UploadPartOutput where
  ETag : GoStr
  ServerSideEncryption : GoStr
  SSEKMSKeyId : GoStr
deriving DecidableEq

/-- `S3.UploadPart`. -/

def uploadPart (md5fn : Bytes → Bytes) (s : S3State) (input : UploadPartInput) :
    S3State × Except AwsError UploadPartOutput :=
  match alookup input.UploadId s.multipartUploads with
  | none => (s, .error (XXX_TODO "no upload"))
  | some upload =>
    if upload.Bucket = input.Bucket ∧ upload.Key = input.Key then
      let part : S3Part := { Data := input.Data, MD5 := md5fn input.Data }
      let upload1 := { upload with Parts := aset input.PartNumber part upload.Parts }
      ({ s with multipartUploads := aset input.UploadId upload1 s.multipartUploads },
       .ok { ETag := hexEncodeToString part.MD5,
             ServerSideEncryption := upload.Object.ServerSideEncryption,
             SSEKMSKeyId := upload.Object.SSEKMSKeyId })
    else (s, .error (XXX_TODO "wrong upload"))

structure APIPart where
  PartNumber : Int
  ETag : GoStr
deriving DecidableEq

structure CompleteMultipartUploadInput where
  Bucket : GoStr
  Key : GoStr
  UploadId : GoStr
  Part : List APIPart
deriving DecidableEq

structure CompleteMultipartUploadOutput where
  Bucket : GoStr
  Key : GoStr
  Location : GoStr
  ETag : GoStr
  ServerSideEncryption : GoStr
  SSEKMSKeyId : GoStr
deriving DecidableEq

/-- The comparison passed to `slices.SortFunc` in `CompleteMultipartUpload`
(ascending `PartNumber`; the model sorts with the reflexive closure, which
is one of the permutations the unstable Go sort may produce). -/

def partLE (a b : APIPart) : Prop := a.PartNumber ≤ b.PartNumber

instance : DecidableRel partLE :=
  fun a b => inferInstanceAs (Decidable (a.PartNumber ≤ b.PartNumber))

instance : IsTotal APIPart partLE := ⟨fun a b => Int.le_total a.PartNumber b.PartNumber⟩

instance : IsTrans APIPart partLE := ⟨fun _ _ _ hab hbc => le_trans hab hbc⟩

/-- The validation loop of `CompleteMultipartUpload`: for each part spec (in
sorted order) the referenced part must exist and its hex MD5 must equal the
spec's `ETag`; on success the parts' MD5s are concatenated. -/

def collectMD5s (parts : List (Int × S3Part)) : List APIPart → Except AwsError Bytes
  | [] => .ok []
  | spec :: rest =>
    match alookup spec.PartNumber parts with
    | none => .error (XXX_TODO "missing part")
    | some part =>
      if spec.ETag = hexEncodeToString part.MD5 then
        match collectMD5s parts rest with
        | .ok res => .ok (part.MD5 ++ res)
        | .error e => .error e
      else .error (XXX_TODO "wrong part")

/-- The concatenation loop of `CompleteMultipartUpload` (a missing part reads
as the Go zero value, whose `Data` is empty; the validation loop has already
ensured every part exists). -/

def concatData (parts : List (Int × S3Part)) : List APIPart → Bytes
  | [] => []
  | spec :: rest =>
    (match alookup spec.PartNumber parts with
     | some p => p.Data
     | none => []) ++ concatData parts rest

/-- Decimal rendering of a `Nat` (model of `strconv.Itoa` on a length). -/

def natToGoStr (n : Nat) : GoStr := (toString n).data

/-- `S3.CompleteMultipartUpload`. -/

def completeMultipartUpload (md5fn : Bytes → Bytes) (s : S3State)
    (input : CompleteMultipartUploadInput) :
    S3State × Except AwsError CompleteMultipartUploadOutput :=
  match alookup input.UploadId s.multipartUploads with
  | none => (s, .error (XXX_TODO "no upload"))
  | some upload =>
    if upload.Bucket = input.Bucket ∧ upload.Key = input.Key then
      let sorted := List.insertionSort partLE input.Part
      match collectMD5s upload.Parts sorted with
      | .error e => (s, .error e)
      | .ok combinedMD5s =>
        let combinedData := concatData upload.Parts sorted
        let object := { upload.Object with Data := combinedData }
        match alookup input.Bucket s.buckets with
        | none => (s, .error (XXX_TODO "panic: assignment to entry in nil map"))
        | some destB =>
          let objId := s.nextId
          ({ s with heap := aset objId object s.heap, nextId := objId + 1,
                    buckets := aset input.Bucket (aset input.Key objId destB) s.buckets,
                    multipartUploads := aremove input.UploadId s.multipartUploads },
           .ok { Bucket := input.Bucket, Key := input.Key,
                 Location := str "http://" ++ s.addr ++ ('/' :: input.Bucket) ++ ('/' :: input.Key),
                 ETag := hexEncodeToString (md5fn combinedMD5s) ++ ('-' :: natToGoStr sorted.length),
                 ServerSideEncryption := object.ServerSideEncryption,
                 SSEKMSKeyId := object.SSEKMSKeyId })
    else (s, .error (XXX_TODO "wrong upload"))

structure AbortMultipartUploadInput where
  UploadId : GoStr
deriving DecidableEq

/-- `S3.AbortMultipartUpload`: unconditionally deletes the upload entry. -/

def abortMultipartUpload (s : S3State) (input : AbortMultipartUploadInput) :
    S3State × Except AwsError Unit :=
  ({ s with multipartUploads := aremove input.UploadId s.multipartUploads }, .ok ())

/-- One S3 engine call, with the environment-supplied values (fresh UUID,
current time) carried in the constructor. -/

inductive S3Op where
  | createBucket (input : CreateBucketInput)
  | getObject (bucket key : GoStr)
  | putObject (input : PutObjectInput)
  | copyObject (now : GoStr) (input : CopyObjectInput)
  | deleteObject (input : DeleteObjectInput)
  | getObjectTagging (input : GetObjectTaggingInput)
  | putObjectTagging (input : PutObjectTaggingInput)
  | deleteObjectTagging (input : DeleteObjectTaggingInput)
  | createMultipartUpload (uploadId : GoStr) (input : CreateMultipartUploadInput)
  | uploadPart (input : UploadPartInput)
  | completeMultipartUpload (input : CompleteMultipartUploadInput)
  | abortMultipartUpload (input : AbortMultipartUploadInput)

/-- The state reached by running one S3 engine call. -/

def applyS3Op (md5fn : Bytes → Bytes) (op : S3Op) (s : S3State) : S3State :=
  match op with
  | .createBucket input => (createBucket s input).1
  | .getObject bucket key => (getObject s bucket key).1
  | .putObject input => (putObject md5fn s input).1
  | .copyObject now input => (copyObject now s input).1
  | .deleteObject input => (deleteObject s input).1
  | .getObjectTagging input => (getObjectTagging s input).1
  | .putObjectTagging input => (putObjectTagging s input).1
  | .deleteObjectTagging input => (deleteObjectTagging s input).1
  | .createMultipartUpload uploadId input => (createMultipartUpload uploadId s input).1
  | .uploadPart input => (uploadPart md5fn s input).1
  | .completeMultipartUpload input => (completeMultipartUpload md5fn s input).1
  | .abortMultipartUpload input => (abortMultipartUpload s input).1

/-- An upload id is live when it is present in the engine's upload table. -/

def uploadLive (s : S3State) (u : GoStr) : Prop :=
  (alookup u s.multipartUploads).isSome = true

instance (s : S3State) (u : GoStr) : Decidable (uploadLive s u) :=
  inferInstanceAs (Decidable (_ = true))

/- ------------------------------------------------------------------
The HTTP dispatcher (`main` in the unnamed file) and handler
registration (`services/kinesis/http.go`).
------------------------------------------------------------------ -/

/-- A registered handler: it receives the buffered request body and
produces a status, extra headers and a body.  Handler behaviour is opaque
to the dispatcher, so it is a plain function parameter in the model. -/

structure HandlerResult where
  status : Nat
  headers : List (GoStr × GoStr)
  body : Bytes

/-- The dispatcher's flat method registry (`map[string]http.HandlerFunc`). -/

abbrev Registry := List (GoStr × (Bytes → HandlerResult))

/-- Modelled from the spec: `http.Register` of the `aws-in-a-box/http`
package (not under `src/`); per spec §4.C it inserts the handler into the
flat registry keyed by the concatenated target string
`<service_prefix>.<method_name>`. -/

def httpRegister (registry : Registry) (service method : GoStr)
    (handler : Bytes → HandlerResult) : Registry :=
  aset (service ++ ('.' :: method)) handler registry

/-- `const service = "Kinesis_20131202"` of `services/kinesis/http.go`. -/

def kinesisService : GoStr := str "Kinesis_20131202"

/-- `Kinesis.RegisterHTTPHandlers`: exactly the five registrations present
in `services/kinesis/http.go`, in source order. -/

def registerKinesisHTTPHandlers
    (hCreateStream hPutRecord hListShards hGetShardIterator hGetRecords :
      Bytes → HandlerResult)
    (registry : Registry) : Registry :=
  let r1 := httpRegister registry kinesisService (str "CreateStream") hCreateStream
  let r2 := httpRegister r1 kinesisService (str "PutRecord") hPutRecord
  let r3 := httpRegister r2 kinesisService (str "ListShards") hListShards
  let r4 := httpRegister r3 kinesisService (str "GetShardIterator") hGetShardIterator
  httpRegister r4 kinesisService (str "GetRecords") hGetRecords

/-- An incoming HTTP request as the dispatcher sees it: the `X-Amz-Target`
header and the result of `io.ReadAll(r.Body)` (which either yields the full
body bytes or an error). -/

structure HttpRequest where
  target : GoStr
  body : Except GoStr Bytes

/-- The response written by the dispatcher. -/

structure HttpResponse where
  status : Nat
  headers : List (GoStr × GoStr)
  body : Bytes

/-- What one run of the dispatcher's handler function did: the response,
and — if a registered handler was invoked — which target it was registered
under together with the exact body bytes handed to it. -/

structure DispatchResult where
  response : HttpResponse
  invoked : Option (GoStr × Bytes)

/-- The `x-amzn-RequestId` header name. -/

def xAmznRequestId : GoStr := str "x-amzn-RequestId"

/-- The dispatcher loop of `main` (unnamed file, lines 64–85):
reads the whole body with `io.ReadAll` (no size limit; a read error is
answered with `http.Error(..., 500)` and the error text, *before* the
request-id header is added), then adds `x-amzn-RequestId`, looks up the
`X-Amz-Target` header in the flat registry, answers plain 404 on a miss,
and otherwise invokes the registered handler on the buffered body.
`requestId` models the freshly generated UUID v4. -/

def dispatch (registry : Registry) (requestId : GoStr) (req : HttpRequest) :
    DispatchResult :=
  match req.body with
  | .error e =>
    { response := { status := 500, headers := [], body := (e ++ [Char.ofNat 10]).map Char.toNat },
      invoked := none }
  | .ok buf =>
    let baseHeaders := [(xAmznRequestId, requestId)]
    match alookup req.target registry with
    | none =>
      { response := { status := 404, headers := baseHeaders, body := [] },
        invoked := none }
    | some handler =>
      let r := handler buf
      { response := { status := r.status, headers := baseHeaders ++ r.headers, body := r.body },
        invoked := some (req.target, buf) }

/- ------------------------------------------------------------------
Kinesis startup (`main`, lines 45–55).  The Kinesis engine itself is not
under `src/`; only its registration file and its callers are.
------------------------------------------------------------------ -/

/-- Modelled from the spec: the Kinesis engine's stream table, reduced to
what `CreateStream` establishes — each stream name maps to its shard
count.  (The engine source is not under `src/`.) -/

abbrev KinesisStreams := List (GoStr × Int)

/-- Modelled from the spec: `kinesis.CreateStream` (not under `src/`).
Spec §4.D: input `{name, shard_count ∈ [1,1000]}`; a stream with the same
name already present is an error (`ResourceInUseException`, §7); otherwise
the stream is created with the requested shard count. -/

def kinesisCreateStream (streams : KinesisStreams) (name : GoStr)
    (shardCount : Int) : KinesisStreams × Except AwsError Unit :=
  match alookup name streams with
  | some _ => (streams, .error (XXX_TODO "ResourceInUseException"))
  | none =>
    if 1 ≤ shardCount ∧ shardCount ≤ 1000 then
      (aset name shardCount streams, .ok ())
    else (streams, .error (XXX_TODO "InvalidArgumentException"))

/-- Default value of the `-kinesisInitialShardsPerStream` flag. -/

def defaultKinesisInitialShardsPerStream : Int := 2

/-- Default value of the `-kinesisInitialStreams` flag. -/

def defaultKinesisInitialStreams : GoStr := str ""

/-- The startup loop of `main` (lines 45–55): when `enableKinesis` is set,
split the `-kinesisInitialStreams` flag on `,` and call `CreateStream` for
every piece with the `-kinesisInitialShardsPerStream` shard count, ignoring
the returned error (the Go code discards it). -/

def startupKinesisStreams (enableKinesis : Bool) (initialStreams : GoStr)
    (shardsPerStream : Int) : KinesisStreams :=
  if enableKinesis then
    (splitChar ',' initialStreams).foldl
      (fun streams name => (kinesisCreateStream streams name shardsPerStream).1) []
  else []

/- ------------------------------------------------------------------
Dispatcher properties.
------------------------------------------------------------------ -/

/-- A handler that answers 200 with an empty body; used as a concrete
handler value where the dispatcher's behaviour is independent of it. -/

def nullHandler : Bytes → HandlerResult :=
  fun _ => { status := 200, headers := [], body := [] }

/-- A request body one byte larger than 16 MiB. -/

def oversizedBody : Bytes := List.replicate (16 * 1048576 + 1) 0

/-- The five Kinesis method names actually registered by
`RegisterHTTPHandlers` in `services/kinesis/http.go`. -/

def registeredKinesisMethods : List GoStr :=
  [str "CreateStream", str "PutRecord", str "ListShards",
   str "GetShardIterator", str "GetRecords"]

/-- The nine Kinesis operations named in the spec's operation list that
`RegisterHTTPHandlers` does not register. -/

def unregisteredKinesisMethods : List GoStr :=
  [str "DeleteStream", str "DescribeStream", str "IncreaseStreamRetentionPeriod",
   str "DecreaseStreamRetentionPeriod", str "PutRecords", str "SplitShard",
   str "MergeShards", str "StartStreamEncryption", str "StopStreamEncryption"]

/- ------------------------------------------------------------------
Pointer aliasing in the S3 engine (claim C3).
------------------------------------------------------------------ -/

/-- A stand-in for the abstract MD5 parameter in concrete runs. -/

def identityMD5 : Bytes → Bytes := fun d => d

def aliasState0 : S3State := S3.new (str "addr")

def aliasState1 : S3State := (createBucket aliasState0 { Bucket := str "b" }).1

def aliasPutInput : PutObjectInput :=
  { Bucket := str "b", Key := str "k", Data := [7], ContentType := str "ct",
    Tagging := [], ServerSideEncryption := [], SSEKMSKeyId := [],
    SSECustomerAlgorithm := [], SSECustomerKey := [], SSEKMSEncryptionContext := [] }

def aliasState2 : S3State := (putObject identityMD5 aliasState1 aliasPutInput).1

/-- The object stored at id 0 of `aliasState2`. -/

def aliasObject : Object :=
  { Data := [7], MD5 := [7], ContentType := str "ct", Tagging := [],
    ServerSideEncryption := [], SSECustomerAlgorithm := [], SSECustomerKey := [],
    SSEKMSKeyId := [], SSEKMSEncryptionContext := [] }

def aliasTagInput : PutObjectTaggingInput :=
  { Bucket := str "b", Key := str "k", Tag := [{ Key := str "x", Value := str "1" }] }

def aliasState3 : S3State := (putObjectTagging aliasState2 aliasTagInput).1

def aliasState2b : S3State := (createBucket aliasState2 { Bucket := str "c" }).1

def copyInputW : CopyObjectInput :=
  { Bucket := str "c", Key := str "k2", CopySource := str "/b/k",
    MetadataDirective := str "REPLACE", TaggingDirective := [], Tagging := [],
    ContentType := str "new", ServerSideEncryption := [], SSEKMSKeyId := [],
    SSECustomerAlgorithm := [], SSECustomerKey := [] }

/- ------------------------------------------------------------------
Multipart upload liveness (claim C6).
------------------------------------------------------------------ -/

/-- Non-`ok` test for `Except` results. -/

def exceptOk {ε α : Type} : Except ε α → Bool
  | .ok _ => true
  | .error _ => false

/- ------------------------------------------------------------------
Object tagging round-trip (claim C9).
------------------------------------------------------------------ -/

def badTagInput : PutObjectTaggingInput :=
  { Bucket := str "b", Key := str "k", Tag := [{ Key := str "a", Value := str "b&c" }] }

/-- A tag whose key and value avoid the writer's and reader's
metacharacters `&` and `=`. -/

def tagClean (t : APITag) : Prop :=
  '&' ∉ t.Key ∧ '=' ∉ t.Key ∧ '&' ∉ t.Value ∧ '=' ∉ t.Value

instance (t : APITag) : Decidable (tagClean t) := by
  unfold tagClean
  infer_instance

/- ------------------------------------------------------------------
`CompleteMultipartUpload` is independent of part-list order (claim C10).
------------------------------------------------------------------ -/

/-- The validation the completion loop performs on one part spec: the part
number must name an uploaded part whose hex MD5 equals the spec's `ETag`. -/

def specOK (parts : List (Int × S3Part)) (spec : APIPart) : Bool :=
  match alookup spec.PartNumber parts with
  | some p => decide (spec.ETag = hexEncodeToString p.MD5)
  | none => false

/-- The unique valid part spec for a given part number. -/

def partSpecOf (parts : List (Int × S3Part)) (n : Int) : APIPart :=
  { PartNumber := n,
    ETag := match alookup n parts with
            | some p => hexEncodeToString p.MD5
            | none => [] }

def permUpload : MultipartUpload :=
  { Bucket := str "b", Key := str "k",
    Parts := [(1, { Data := [1], MD5 := [170] }), (2, { Data := [2, 3], MD5 := [187] })],
    Object := Object.zero }

def permState : S3State :=
  { addr := str "a", heap := [], nextId := 0,
    buckets := [(str "b", [])],
    multipartUploads := [(str "u", permUpload)] }

def permSpec1 : APIPart := { PartNumber := 1, ETag := hexEncodeToString [170] }

def permSpec2 : APIPart := { PartNumber := 2, ETag := hexEncodeToString [187] }

theorem alookup_aset_self {α β : Type} [DecidableEq α] (k : α) (v : β)
    (l : List (α × β)) : alookup k (aset k v l) = some v := by
  induction l with
  | nil => simp [aset, alookup]
  | cons hd t ih =>
    obtain ⟨a, b⟩ := hd
    by_cases h : a = k <;> simp [aset, alookup, h, ih]

theorem alookup_aset_ne {α β : Type} [DecidableEq α] {k k' : α} (v : β)
    (l : List (α × β)) (h : k ≠ k') : alookup k' (aset k v l) = alookup k' l := by
  induction l with
  | nil => simp [aset, alookup, h]
  | cons hd t ih =>
    obtain ⟨a, b⟩ := hd
    by_cases ha : a = k
    · subst ha
      simp [aset, alookup, h, ih]
    · simp [aset, alookup, ha, ih]

theorem alookup_aremove_self {α β : Type} [DecidableEq α] (k : α)
    (l : List (α × β)) : alookup k (aremove k l) = none := by
  induction l with
  | nil => simp [aremove, alookup]
  | cons hd t ih =>
    obtain ⟨a, b⟩ := hd
    by_cases h : a = k <;> simp [aremove, alookup, h, ih]

theorem alookup_aremove_ne {α β : Type} [DecidableEq α] {k k' : α}
    (l : List (α × β)) (h : k ≠ k') : alookup k' (aremove k l) = alookup k' l := by
  induction l with
  | nil => simp [aremove, alookup]
  | cons hd t ih =>
    obtain ⟨a, b⟩ := hd
    by_cases ha : a = k
    · subst ha
      simp [aremove, alookup, h, ih]
    · simp [aremove, alookup, ha, ih]

theorem splitChar_ne_nil (c : Char) (s : GoStr) : splitChar c s ≠ [] := by
  cases s with
  | nil => simp [splitChar]
  | cons x xs =>
    by_cases h : x = c
    · simp [splitChar, h]
    · simp only [splitChar, h, if_false]
      cases splitChar c xs <;> simp

/-- Splitting a string that does not contain the separator yields the string
itself as the single piece. -/

theorem splitChar_of_not_mem {c : Char} {s : GoStr} (h : c ∉ s) :
    splitChar c s = [s] := by
  induction s with
  | nil => simp [splitChar]
  | cons x xs ih =>
    simp only [List.mem_cons, not_or] at h
    have hx : x ≠ c := fun hc => h.1 hc.symm
    simp [splitChar, hx, ih h.2]

/-- Splitting around an explicit separator occurrence, when the prefix part
is separator-free. -/

theorem splitChar_append {c : Char} {p : GoStr} (s : GoStr) (h : c ∉ p) :
    splitChar c (p ++ c :: s) = p :: splitChar c s := by
  induction p with
  | nil => simp [splitChar]
  | cons x xs ih =>
    simp only [List.mem_cons, not_or] at h
    have hx : x ≠ c := fun hc => h.1 hc.symm
    have := ih h.2
    simp only [List.cons_append, splitChar, hx, if_false, List.append_eq, this]

/-- Unescaping a string without `%` leaves it unchanged. -/

theorem pathUnescape_no_pct {s : GoStr} (h : '%' ∉ s) :
    pathUnescape s = some s := by
  induction s with
  | nil => rfl
  | cons x xs ih =>
    simp only [List.mem_cons, not_or] at h
    have hx : x ≠ '%' := fun hc => h.1 hc.symm
    unfold pathUnescape
    rw [if_neg hx, ih h.2]
    rfl

/-- Claim C4: a request whose `X-Amz-Target` value is not a key of the flat
handler registry is answered with HTTP 404 and an empty body, and no
handler is invoked. -/

theorem dispatch_unregistered_target_404 (registry : Registry) (requestId : GoStr)
    (req : HttpRequest) (buf : Bytes) (hbody : req.body = .ok buf)
    (hmiss : alookup req.target registry = none) :
    (dispatch registry requestId req).response.status = 404 ∧
    (dispatch registry requestId req).response.body = [] ∧
    (dispatch registry requestId req).invoked = none := by
  simp [dispatch, hbody, hmiss]

/-- Witness for C4: a concrete unregistered target on the empty registry. -/

theorem dispatch_unregistered_target_404_witness :
    (dispatch [] (str "req-id") { target := str "NoSuch.Method", body := .ok [] }).response.status = 404 ∧
    (dispatch [] (str "req-id") { target := str "NoSuch.Method", body := .ok [] }).response.body = [] ∧
    (dispatch [] (str "req-id") { target := str "NoSuch.Method", body := .ok [] }).invoked = none :=
  dispatch_unregistered_target_404 [] (str "req-id")
    { target := str "NoSuch.Method", body := .ok [] } [] rfl rfl

/-- Counterexample to claim C2: the dispatcher imposes no body-size bound at
all — a body strictly larger than 16 MiB is buffered completely and handed
to the registered handler as complete. -/

theorem dispatch_body_limit_counterexample :
    16 * 1048576 < oversizedBody.length ∧
    (dispatch [(str "Svc.M", nullHandler)] (str "req-id")
      { target := str "Svc.M", body := .ok oversizedBody }).invoked =
      some (str "Svc.M", oversizedBody) := by
  refine ⟨?_, ?_⟩
  · have h : oversizedBody.length = 16 * 1048576 + 1 := by
      unfold oversizedBody
      rw [List.length_replicate]
    omega
  · simp [dispatch, alookup]

/-- Claim C2 as amended: for every incoming request whose body stream is
read successfully, the dispatcher buffers the body in full — with no size
bound of any kind — and hands exactly those bytes to the registered
handler. -/

theorem dispatch_hands_full_body (registry : Registry) (requestId : GoStr)
    (req : HttpRequest) (buf : Bytes) (handler : Bytes → HandlerResult)
    (hbody : req.body = .ok buf)
    (hfound : alookup req.target registry = some handler) :
    (dispatch registry requestId req).invoked = some (req.target, buf) := by
  simp [dispatch, hbody, hfound]

/-- Witness for the amended C2. -/

theorem dispatch_hands_full_body_witness :
    (dispatch [(str "Svc.M", nullHandler)] (str "req-id")
      { target := str "Svc.M", body := .ok [1, 2, 3] }).invoked =
      some (str "Svc.M", [1, 2, 3]) :=
  dispatch_hands_full_body [(str "Svc.M", nullHandler)] (str "req-id")
    { target := str "Svc.M", body := .ok [1, 2, 3] } [1, 2, 3] nullHandler rfl rfl

/-- Counterexample to claim C5: when `io.ReadAll` on the request body fails,
the dispatcher answers 500 via `http.Error` *before* the request-id header
is added, so that error response carries no `x-amzn-RequestId` header. -/

theorem dispatch_requestId_counterexample :
    (dispatch [] (str "some-uuid")
      { target := str "T", body := .error (str "boom") }).response.status = 500 ∧
    (dispatch [] (str "some-uuid")
      { target := str "T", body := .error (str "boom") }).response.headers = [] := by
  exact ⟨rfl, rfl⟩

/-- Claim C5 as amended: every response produced after the request body was
read successfully — the 404 for an unregistered target as well as every
handler response — carries the `x-amzn-RequestId` header with the freshly
generated request id (modelled as the `requestId` argument). -/

theorem dispatch_requestId_header (registry : Registry) (requestId : GoStr)
    (req : HttpRequest) (buf : Bytes) (hbody : req.body = .ok buf) :
    (xAmznRequestId, requestId) ∈ (dispatch registry requestId req).response.headers := by
  cases hfound : alookup req.target registry with
  | none => simp [dispatch, hbody, hfound]
  | some handler => simp [dispatch, hbody, hfound]

/-- Witness for the amended C5, on both the 404 path and the handler path. -/

theorem dispatch_requestId_header_witness :
    (xAmznRequestId, str "uuid-1") ∈
      (dispatch [] (str "uuid-1")
        { target := str "T", body := .ok [] }).response.headers ∧
    (xAmznRequestId, str "uuid-2") ∈
      (dispatch [(str "Svc.M", nullHandler)] (str "uuid-2")
        { target := str "Svc.M", body := .ok [7] }).response.headers :=
  ⟨dispatch_requestId_header [] (str "uuid-1") { target := str "T", body := .ok [] } [] rfl,
   dispatch_requestId_header [(str "Svc.M", nullHandler)] (str "uuid-2")
     { target := str "Svc.M", body := .ok [7] } [7] rfl⟩

/-- Counterexample to claim C1: `DeleteStream` is in the spec's operation
list, but a request targeting `Kinesis_20131202.DeleteStream` against the
registry built by `RegisterHTTPHandlers` is answered 404 and no handler is
invoked. -/

theorem kinesis_deleteStream_unrouted_counterexample :
    (dispatch (registerKinesisHTTPHandlers nullHandler nullHandler nullHandler
        nullHandler nullHandler []) (str "req-id")
      { target := str "Kinesis_20131202.DeleteStream", body := .ok [] }).response.status = 404 ∧
    (dispatch (registerKinesisHTTPHandlers nullHandler nullHandler nullHandler
        nullHandler nullHandler []) (str "req-id")
      { target := str "Kinesis_20131202.DeleteStream", body := .ok [] }).invoked = none :=
  ⟨rfl, rfl⟩

/-- Claim C1 as amended: `RegisterHTTPHandlers` registers exactly five of
the fourteen operations in the spec's list — `CreateStream`, `PutRecord`,
`ListShards`, `GetShardIterator`, `GetRecords` — under service prefix
`Kinesis_20131202`; a request targeting any of those five is routed to a
handler, while a request targeting any of the other nine listed operations
is answered 404 with no handler invoked. -/

theorem kinesis_registration_exact
    (h1 h2 h3 h4 h5 : Bytes → HandlerResult) (requestId : GoStr)
    (buf : Bytes) (m : GoStr) :
    (m ∈ registeredKinesisMethods →
      (dispatch (registerKinesisHTTPHandlers h1 h2 h3 h4 h5 []) requestId
        { target := kinesisService ++ ('.' :: m), body := .ok buf }).invoked =
        some (kinesisService ++ ('.' :: m), buf)) ∧
    (m ∈ unregisteredKinesisMethods →
      (dispatch (registerKinesisHTTPHandlers h1 h2 h3 h4 h5 []) requestId
        { target := kinesisService ++ ('.' :: m), body := .ok buf }).response.status = 404 ∧
      (dispatch (registerKinesisHTTPHandlers h1 h2 h3 h4 h5 []) requestId
        { target := kinesisService ++ ('.' :: m), body := .ok buf }).invoked = none) := by
  constructor
  · intro hm
    simp only [registeredKinesisMethods, List.mem_cons, List.mem_singleton,
      List.not_mem_nil, or_false] at hm
    rcases hm with rfl | rfl | rfl | rfl | rfl <;> rfl
  · intro hm
    simp only [unregisteredKinesisMethods, List.mem_cons, List.mem_singleton,
      List.not_mem_nil, or_false] at hm
    rcases hm with rfl | rfl | rfl | rfl | rfl | rfl | rfl | rfl | rfl <;> exact ⟨rfl, rfl⟩

/-- Witness for the amended C1: `PutRecord` is routed, `SplitShard` is not. -/

theorem kinesis_registration_exact_witness :
    (dispatch (registerKinesisHTTPHandlers nullHandler nullHandler nullHandler
        nullHandler nullHandler []) (str "req-id")
      { target := kinesisService ++ ('.' :: str "PutRecord"), body := .ok [1] }).invoked =
      some (kinesisService ++ ('.' :: str "PutRecord"), [1]) ∧
    (dispatch (registerKinesisHTTPHandlers nullHandler nullHandler nullHandler
        nullHandler nullHandler []) (str "req-id")
      { target := kinesisService ++ ('.' :: str "SplitShard"), body := .ok [1] }).response.status = 404 :=
  ⟨(kinesis_registration_exact nullHandler nullHandler nullHandler nullHandler nullHandler
      (str "req-id") [1] (str "PutRecord")).1 (by decide),
   ((kinesis_registration_exact nullHandler nullHandler nullHandler nullHandler nullHandler
      (str "req-id") [1] (str "SplitShard")).2 (by decide)).1⟩

/- ------------------------------------------------------------------
Kinesis startup (claim C7).
------------------------------------------------------------------ -/

/-- One `CreateStream` call leaves every existing `(name ↦ shardCount)`
entry whose value is the startup shard count in place. -/

theorem kinesisCreateStream_preserves (streams : KinesisStreams)
    (n name : GoStr) (c : Int) (hprev : alookup name streams = some c) :
    alookup name (kinesisCreateStream streams n c).1 = some c := by
  unfold kinesisCreateStream
  cases hn : alookup n streams with
  | some v => simpa using hprev
  | none =>
    by_cases hvalid : 1 ≤ c ∧ c ≤ 1000
    · simp only [hvalid, if_true]
      by_cases hne : n = name
      · subst hne
        rw [hn] at hprev
        exact absurd hprev (by simp)
      · simpa [alookup_aset_ne _ _ hne] using hprev
    · simpa [hvalid] using hprev

/-- Every value stored by the startup fold is the startup shard count. -/

theorem kinesisCreateStream_values (streams : KinesisStreams) (n : GoStr) (c : Int)
    (hinv : ∀ k v, alookup k streams = some v → v = c) :
    ∀ k v, alookup k (kinesisCreateStream streams n c).1 = some v → v = c := by
  intro k v hv
  unfold kinesisCreateStream at hv
  cases hn : alookup n streams with
  | some w => rw [hn] at hv; exact hinv k v hv
  | none =>
    rw [hn] at hv
    by_cases hvalid : 1 ≤ c ∧ c ≤ 1000
    · rw [if_pos hvalid] at hv
      by_cases hne : n = k
      · subst hne
        rw [alookup_aset_self] at hv
        exact (Option.some_inj.mp hv).symm
      · rw [alookup_aset_ne _ _ hne] at hv
        exact hinv k v hv
    · rw [if_neg hvalid] at hv
      exact hinv k v hv

/-- The startup fold establishes `name ↦ shardCount` for every processed
name, provided the shard count passes the spec's `[1,1000]` validation. -/

theorem startup_fold_creates (c : Int) (hvalid : 1 ≤ c ∧ c ≤ 1000) :
    ∀ (names : List GoStr) (streams : KinesisStreams),
      (∀ k v, alookup k streams = some v → v = c) →
      ∀ name, (alookup name streams = some c ∨ name ∈ names) →
      alookup name
        (names.foldl (fun st n => (kinesisCreateStream st n c).1) streams) = some c := by
  intro names
  induction names with
  | nil =>
    intro streams _ name hname
    rcases hname with h | h
    · simpa using h
    · simp at h
  | cons n ns ih =>
    intro streams hinv name hname
    simp only [List.foldl_cons]
    refine ih _ (kinesisCreateStream_values streams n c hinv) name ?_
    rcases hname with h | h
    · exact Or.inl (kinesisCreateStream_preserves streams n name c h)
    · rcases List.mem_cons.mp h with rfl | hmem
      · left
        unfold kinesisCreateStream
        cases hn : alookup name streams with
        | some v => simpa [hn] using hinv name v hn
        | none => simp [hn, hvalid, alookup_aset_self]
      · exact Or.inr hmem

/-- Claim C7: with `enableKinesis` set, startup pre-creates, for every name
in the comma-separated `kinesisInitialStreams` flag value, a Kinesis stream
with that name and with `kinesisInitialShardsPerStream` shards (provided
the shard count passes the engine's `[1,1000]` validation, which the
default of 2 does). -/

theorem startup_creates_initial_streams (enableKinesis : Bool)
    (initialStreams : GoStr) (shardsPerStream : Int)
    (henable : enableKinesis = true)
    (hvalid : 1 ≤ shardsPerStream ∧ shardsPerStream ≤ 1000)
    (name : GoStr) (hname : name ∈ splitChar ',' initialStreams) :
    alookup name (startupKinesisStreams enableKinesis initialStreams shardsPerStream) =
      some shardsPerStream := by
  subst henable
  unfold startupKinesisStreams
  simp only [if_true]
  exact startup_fold_creates shardsPerStream hvalid _ [] (by simp [alookup]) name (Or.inr hname)

/-- Witness for C7: two streams from the flag value `"s1,s2"` with the
default shard count of 2. -/

theorem startup_creates_initial_streams_witness :
    alookup (str "s2")
      (startupKinesisStreams true (str "s1,s2") defaultKinesisInitialShardsPerStream) =
      some defaultKinesisInitialShardsPerStream :=
  startup_creates_initial_streams true (str "s1,s2") defaultKinesisInitialShardsPerStream
    rfl (by decide) (str "s2") (by decide)

/-- Counterexample to claim C3: `GetObject` hands back the stored object
pointer itself, not a snapshot — after a later `PutObjectTagging` mutation
the value reachable through the previously returned pointer has changed. -/

theorem getObject_alias_counterexample :
    (getObject aliasState2 (str "b") (str "k")).2 = .ok 0 ∧
    (alookup 0 aliasState2.heap).map (fun o => o.Tagging) = some [] ∧
    (alookup 0 aliasState3.heap).map (fun o => o.Tagging) = some (str "x=1") ∧
    alookup 0 aliasState2.heap ≠ alookup 0 aliasState3.heap :=
  ⟨rfl, rfl, rfl, by decide⟩

/-- Claim C3 as amended: `GetObject` returns an alias of the engine's
mutable state, not a copy: the returned pointer is exactly the id stored in
the bucket entry, and a subsequent in-place mutation (`PutObjectTagging` on
the same bucket and key) is visible through that previously returned
pointer. -/

theorem getObject_returns_alias (s : S3State) (bucket key : GoStr) (i : Nat)
    (obj : Object) (input : PutObjectTaggingInput)
    (hget : (getObject s bucket key).2 = .ok i)
    (hb : input.Bucket = bucket) (hk : input.Key = key)
    (hheap : alookup i s.heap = some obj) :
    (∃ b, alookup bucket s.buckets = some b ∧ alookup key b = some i) ∧
    alookup i ((putObjectTagging s input).1).heap =
      some { obj with Tagging := joinTags input.Tag } := by
  subst hb
  subst hk
  unfold getObject at hget
  split at hget
  · exact absurd hget (by simp)
  · rename_i b hbk
    split at hget
    · exact absurd hget (by simp)
    · rename_i objId hkey
      simp only [Except.ok.injEq] at hget
      subst hget
      refine ⟨⟨b, hbk, hkey⟩, ?_⟩
      unfold putObjectTagging
      simp only [hbk, hkey, hheap]
      exact alookup_aset_self _ _ _

/-- Witness for the amended C3, on the concrete run used in the
counterexample. -/

theorem getObject_returns_alias_witness :
    (∃ b, alookup (str "b") aliasState2.buckets = some b ∧
      alookup (str "k") b = some 0) ∧
    alookup 0 ((putObjectTagging aliasState2 aliasTagInput).1).heap =
      some { aliasObject with Tagging := joinTags aliasTagInput.Tag } :=
  getObject_returns_alias aliasState2 (str "b") (str "k") 0 aliasObject aliasTagInput
    rfl rfl rfl rfl

/- ------------------------------------------------------------------
`CopyObject` source parsing and aliasing (claim C8).
------------------------------------------------------------------ -/

/-- `SplitN(sep, 2)` around the first separator occurrence. -/

theorem splitN_two {c : Char} {p : GoStr} (s : GoStr) (h : c ∉ p) :
    splitN c 2 (p ++ c :: s) = [p, s] := by
  induction p with
  | nil => simp [splitN]
  | cons x xs ih =>
    simp only [List.mem_cons, not_or] at h
    have hx : x ≠ c := fun hc => h.1 hc.symm
    have := ih h.2
    simp only [List.cons_append, splitN, hx, if_false, List.append_eq, this]

/-- `SplitN("/bucket/key", "/", 3) = ["", bucket, key]` when the bucket name
contains no slash (the key may). -/

theorem splitN_copySource {b k : GoStr} (h : '/' ∉ b) :
    splitN '/' 3 (('/' :: b) ++ ('/' :: k)) = [[], b, k] := by
  have h2 := splitN_two (c := '/') (p := b) k h
  simp only [List.cons_append, splitN, if_pos rfl, if_true, List.append_eq, h2]

/-- Claim C8: `CopyObject` with `MetadataDirective = "REPLACE"` overwrites
the *source* object's metadata in place (the assignments go through the
stored pointer), and then stores that same pointer under the destination
key: afterwards source and destination entries share one object, so a later
in-place mutation through either entry is visible through the other (this

theorem re-applies at the new state with the roles of the two entries
swapped). -/

theorem copyObject_replace_mutates_source_and_shares
    (now : GoStr) (s : S3State) (input : CopyObjectInput)
    (b1 k1 : GoStr) (i : Nat) (o : Object)
    (srcB dstB : List (GoStr × Nat))
    (hcs : input.CopySource = ('/' :: b1) ++ ('/' :: k1))
    (hslash : '/' ∉ b1) (hpct1 : '%' ∉ b1) (hpct2 : '%' ∉ k1)
    (hmeta : input.MetadataDirective = str "REPLACE")
    (hb1 : alookup b1 s.buckets = some srcB)
    (hk1 : alookup k1 srcB = some i)
    (hheap : alookup i s.heap = some o)
    (hb2 : alookup input.Bucket s.buckets = some dstB) :
    alookup i ((copyObject now s input).1).heap =
      some (if input.TaggingDirective = str "REPLACE" then
        { o with ContentType := input.ContentType,
                 ServerSideEncryption := input.ServerSideEncryption,
                 SSEKMSKeyId := input.SSEKMSKeyId,
                 SSECustomerAlgorithm := input.SSECustomerAlgorithm,
                 SSECustomerKey := input.SSECustomerKey,
                 Tagging := input.Tagging }
      else
        { o with ContentType := input.ContentType,
                 ServerSideEncryption := input.ServerSideEncryption,
                 SSEKMSKeyId := input.SSEKMSKeyId,
                 SSECustomerAlgorithm := input.SSECustomerAlgorithm,
                 SSECustomerKey := input.SSECustomerKey }) ∧
    (∃ db, alookup input.Bucket ((copyObject now s input).1).buckets = some db ∧
      alookup input.Key db = some i) ∧
    (∃ sb, alookup b1 ((copyObject now s input).1).buckets = some sb ∧
      alookup k1 sb = some i) := by
  have hpct : '%' ∉ (('/' :: b1) ++ ('/' :: k1)) := by
    intro hmem
    rw [List.cons_append] at hmem
    rcases List.mem_cons.mp hmem with h | h
    · exact absurd h (by decide)
    · rcases List.mem_append.mp h with h' | h'
      · exact hpct1 h'
      · rcases List.mem_cons.mp h' with h2 | h2
        · exact absurd h2 (by decide)
        · exact hpct2 h2
  have hpu : pathUnescape input.CopySource = some (('/' :: b1) ++ ('/' :: k1)) := by
    rw [hcs]
    exact pathUnescape_no_pct hpct
  have hres : (copyObject now s input).1 =
      { s with
        heap := aset i
          (if input.TaggingDirective = str "REPLACE" then
            { o with ContentType := input.ContentType,
                     ServerSideEncryption := input.ServerSideEncryption,
                     SSEKMSKeyId := input.SSEKMSKeyId,
                     SSECustomerAlgorithm := input.SSECustomerAlgorithm,
                     SSECustomerKey := input.SSECustomerKey,
                     Tagging := input.Tagging }
          else
            { o with ContentType := input.ContentType,
                     ServerSideEncryption := input.ServerSideEncryption,
                     SSEKMSKeyId := input.SSEKMSKeyId,
                     SSECustomerAlgorithm := input.SSECustomerAlgorithm,
                     SSECustomerKey := input.SSECustomerKey }) s.heap,
        buckets := aset input.Bucket (aset input.Key i dstB) s.buckets } := by
    unfold copyObject
    simp only [hpu, splitN_copySource hslash, hb1, hk1, hheap, hmeta,
      eq_self_iff_true, if_true, hb2]
  refine ⟨?_, ?_, ?_⟩
  · rw [hres]
    exact alookup_aset_self _ _ _
  · rw [hres]
    exact ⟨aset input.Key i dstB, alookup_aset_self _ _ _, alookup_aset_self _ _ _⟩
  · rw [hres]
    by_cases hbb : b1 = input.Bucket
    · subst hbb
      have hsd : srcB = dstB := by
        rw [hb1] at hb2
        exact Option.some_inj.mp hb2
      subst hsd
      refine ⟨aset input.Key i srcB, alookup_aset_self _ _ _, ?_⟩
      by_cases hkk : k1 = input.Key
      · subst hkk
        exact alookup_aset_self _ _ _
      · rw [alookup_aset_ne _ _ (fun h => hkk h.symm)]
        exact hk1
    · rw [alookup_aset_ne _ _ (fun h => hbb h.symm)]
      exact ⟨srcB, hb1, hk1⟩

/-- Witness for C8: copying `/b/k` to bucket `c` key `k2` with
`MetadataDirective = "REPLACE"` rewrites the source object's content type
and makes the destination entry point at the same object id. -/

theorem copyObject_replace_witness :
    (alookup 0 ((copyObject (str "t") aliasState2b copyInputW).1).heap).map
      (fun o => o.ContentType) = some (str "new") ∧
    (∃ db, alookup (str "c") ((copyObject (str "t") aliasState2b copyInputW).1).buckets =
      some db ∧ alookup (str "k2") db = some 0) := by
  obtain ⟨h1, h2, _⟩ :=
    copyObject_replace_mutates_source_and_shares (str "t") aliasState2b copyInputW
      (str "b") (str "k") 0 aliasObject [(str "k", 0)] []
      (by decide) (by decide) (by decide) (by decide) rfl rfl rfl rfl rfl
  refine ⟨?_, h2⟩
  rw [h1]
  rfl

theorem createBucket_uploads (s : S3State) (input : CreateBucketInput) :
    (createBucket s input).1.multipartUploads = s.multipartUploads := by
  unfold createBucket
  cases alookup input.Bucket s.buckets <;> rfl

theorem getObject_uploads (s : S3State) (bucket key : GoStr) :
    (getObject s bucket key).1.multipartUploads = s.multipartUploads := by
  unfold getObject
  repeat' split
  all_goals rfl

theorem putObject_uploads (md5fn : Bytes → Bytes) (s : S3State) (input : PutObjectInput) :
    (putObject md5fn s input).1.multipartUploads = s.multipartUploads := by
  unfold putObject
  cases alookup input.Bucket s.buckets <;> rfl

theorem copyObject_uploads (now : GoStr) (s : S3State) (input : CopyObjectInput) :
    (copyObject now s input).1.multipartUploads = s.multipartUploads := by
  unfold copyObject
  repeat' split
  all_goals try rfl
  all_goals dsimp only
  all_goals repeat' split
  all_goals rfl

theorem deleteObject_uploads (s : S3State) (input : DeleteObjectInput) :
    (deleteObject s input).1.multipartUploads = s.multipartUploads := by
  unfold deleteObject
  repeat' split
  all_goals rfl

theorem getObjectTagging_uploads (s : S3State) (input : GetObjectTaggingInput) :
    (getObjectTagging s input).1.multipartUploads = s.multipartUploads := by
  unfold getObjectTagging
  repeat' split
  all_goals rfl

theorem putObjectTagging_uploads (s : S3State) (input : PutObjectTaggingInput) :
    (putObjectTagging s input).1.multipartUploads = s.multipartUploads := by
  unfold putObjectTagging
  repeat' split
  all_goals rfl

theorem deleteObjectTagging_uploads (s : S3State) (input : DeleteObjectTaggingInput) :
    (deleteObjectTagging s input).1.multipartUploads = s.multipartUploads := by
  unfold deleteObjectTagging
  repeat' split
  all_goals rfl

/-- Claim C6: a multipart upload id is live exactly between its creation by
`CreateMultipartUpload` (into an existing bucket) and the first successful
`CompleteMultipartUpload` or an `AbortMultipartUpload` naming it; the other
ten engine operations neither create nor remove upload records. -/

theorem multipartUpload_liveness (md5fn : Bytes → Bytes) (s : S3State)
    (op : S3Op) (u : GoStr) :
    uploadLive (applyS3Op md5fn op s) u ↔
      (match op with
       | .createMultipartUpload uploadId input =>
         ((alookup input.Bucket s.buckets).isSome = true ∧ u = uploadId) ∨ uploadLive s u
       | .completeMultipartUpload input =>
         uploadLive s u ∧
           ¬(exceptOk (completeMultipartUpload md5fn s input).2 = true ∧ u = input.UploadId)
       | .abortMultipartUpload input => uploadLive s u ∧ u ≠ input.UploadId
       | _ => uploadLive s u) := by
  cases op with
  | createBucket input =>
    simp only [applyS3Op, uploadLive, createBucket_uploads]
  | getObject bucket key =>
    simp only [applyS3Op, uploadLive, getObject_uploads]
  | putObject input =>
    simp only [applyS3Op, uploadLive, putObject_uploads]
  | copyObject now input =>
    simp only [applyS3Op, uploadLive, copyObject_uploads]
  | deleteObject input =>
    simp only [applyS3Op, uploadLive, deleteObject_uploads]
  | getObjectTagging input =>
    simp only [applyS3Op, uploadLive, getObjectTagging_uploads]
  | putObjectTagging input =>
    simp only [applyS3Op, uploadLive, putObjectTagging_uploads]
  | deleteObjectTagging input =>
    simp only [applyS3Op, uploadLive, deleteObjectTagging_uploads]
  | createMultipartUpload uploadId input =>
    simp only [applyS3Op]
    unfold createMultipartUpload
    cases hb : alookup input.Bucket s.buckets with
    | none => simp [uploadLive]
    | some b =>
      by_cases hu : u = uploadId
      · subst hu
        simp [uploadLive, alookup_aset_self]
      · simp [uploadLive, alookup_aset_ne _ _ (fun h => hu h.symm), hu]
  | uploadPart input =>
    simp only [applyS3Op]
    unfold uploadPart
    cases hu : alookup input.UploadId s.multipartUploads with
    | none => simp [uploadLive]
    | some upload =>
      dsimp only
      by_cases hbk : upload.Bucket = input.Bucket ∧ upload.Key = input.Key
      · rw [if_pos hbk]
        by_cases huu : u = input.UploadId
        · subst huu
          simp [uploadLive, alookup_aset_self, hu]
        · simp [uploadLive, alookup_aset_ne _ _ (fun h => huu h.symm)]
      · rw [if_neg hbk]
  | completeMultipartUpload input =>
    simp only [applyS3Op]
    unfold completeMultipartUpload
    cases hu : alookup input.UploadId s.multipartUploads with
    | none => simp [uploadLive, exceptOk]
    | some upload =>
      dsimp only
      by_cases hbk : upload.Bucket = input.Bucket ∧ upload.Key = input.Key
      · rw [if_pos hbk]
        cases hc : collectMD5s upload.Parts (List.insertionSort partLE input.Part) with
        | error e => simp [uploadLive, exceptOk]
        | ok md5s =>
          cases hb : alookup input.Bucket s.buckets with
          | none => simp [uploadLive, exceptOk]
          | some destB =>
            by_cases huu : u = input.UploadId
            · subst huu
              simp [uploadLive, exceptOk, alookup_aremove_self, hu]
            · simp [uploadLive, exceptOk, alookup_aremove_ne _ (fun h => huu h.symm), huu]
      · rw [if_neg hbk]
        simp [uploadLive, exceptOk]
  | abortMultipartUpload input =>
    simp only [applyS3Op]
    unfold abortMultipartUpload
    by_cases huu : u = input.UploadId
    · subst huu
      simp [uploadLive, alookup_aremove_self]
    · simp [uploadLive, alookup_aremove_ne _ (fun h => huu h.symm), huu]

/-- Counterexample to claim C9 as stated: the singleton tag set
`{a: "b&c"}` is written fine by `PutObjectTagging`, but the subsequent
`GetObjectTagging` errors (the stored string `a=b&c` splits on `&` into a
piece without `=`), so the claimed round-trip for *every* singleton tag set
fails. -/

theorem tagging_roundtrip_counterexample :
    (putObjectTagging aliasState2 badTagInput).2 = .ok {} ∧
    (getObjectTagging (putObjectTagging aliasState2 badTagInput).1
      { Bucket := str "b", Key := str "k" }).2 = .error (XXX_TODO "invalid tagging") :=
  ⟨rfl, rfl⟩

/-- The number of pieces `Split` produces is the separator count plus 1. -/

theorem splitChar_length (c : Char) (s : GoStr) :
    (splitChar c s).length = s.count c + 1 := by
  induction s with
  | nil => simp [splitChar]
  | cons x xs ih =>
    by_cases h : x = c
    · subst h
      have hstep : splitChar x (x :: xs) = [] :: splitChar x xs := by
        simp only [splitChar, eq_self_iff_true, if_true]
      rw [hstep, List.length_cons, ih, List.count_cons_self]
    · have hcx : c ≠ x := fun hc => h hc.symm
      simp only [splitChar, h, if_false]
      cases hsp : splitChar c xs with
      | nil => exact absurd hsp (splitChar_ne_nil c xs)
      | cons hd tl =>
        rw [hsp] at ih
        simp only [List.length_cons] at ih ⊢
        rw [List.count_cons_of_ne hcx]
        omega

/-- The joined tagging string of clean tags contains no `&`. -/

theorem joinTags_no_amp (tags : List APITag) (hclean : ∀ t ∈ tags, tagClean t) :
    '&' ∉ joinTags tags := by
  induction tags with
  | nil => exact fun hmem => absurd hmem (List.not_mem_nil _)
  | cons t rest ih =>
    have hc := hclean t (by simp)
    cases rest with
    | nil =>
      intro hmem
      simp only [joinTags] at hmem
      rcases List.mem_append.mp hmem with h1 | h1
      · exact hc.1 h1
      · rcases List.mem_cons.mp h1 with h2 | h2
        · exact absurd h2 (by decide)
        · exact hc.2.2.1 h2
    | cons t2 rest2 =>
      have ih' := ih (fun x hx => hclean x (List.mem_cons_of_mem _ hx))
      intro hmem
      simp only [joinTags] at hmem
      rcases List.mem_append.mp hmem with h1 | h1
      · rcases List.mem_append.mp h1 with h2 | h2
        · exact hc.1 h2
        · rcases List.mem_cons.mp h2 with h3 | h3
          · exact absurd h3 (by decide)
          · exact hc.2.2.1 h3
      · rcases List.mem_cons.mp h1 with h3 | h3
        · exact absurd h3 (by decide)
        · exact ih' h3

/-- The joined tagging string of clean tags contains exactly one `=` per
tag. -/

theorem joinTags_count_eq (tags : List APITag) (hclean : ∀ t ∈ tags, tagClean t) :
    (joinTags tags).count '=' = tags.length := by
  induction tags with
  | nil => rfl
  | cons t rest ih =>
    have hc := hclean t (by simp)
    have hkey : (t.Key).count '=' = 0 := List.count_eq_zero.mpr hc.2.1
    have hval : (t.Value).count '=' = 0 := List.count_eq_zero.mpr hc.2.2.2
    cases rest with
    | nil =>
      simp only [joinTags, List.count_append, List.count_cons_self, hkey, hval,
        List.length_cons, List.length_nil]
    | cons t2 rest2 =>
      have ih' := ih (fun x hx => hclean x (List.mem_cons_of_mem _ hx))
      simp only [joinTags, List.count_append, List.count_cons_self, hkey, hval,
        List.length_cons]
      rw [List.count_cons_of_ne (by decide : ('=' : Char) ≠ ','), ih']
      simp only [List.length_cons]
      omega

/-- State reached by a successful `PutObjectTagging`. -/

theorem putObjectTagging_state (s : S3State) (input : PutObjectTaggingInput)
    (bkt : List (GoStr × Nat)) (i : Nat) (o : Object)
    (hb : alookup input.Bucket s.buckets = some bkt)
    (hk : alookup input.Key bkt = some i)
    (hh : alookup i s.heap = some o) :
    (putObjectTagging s input).1 =
      { s with heap := aset i { o with Tagging := joinTags input.Tag } s.heap } := by
  unfold putObjectTagging
  simp only [hb, hk, hh]

/-- Result of `GetObjectTagging` as a function of the stored tagging
string. -/

theorem getObjectTagging_eval (s : S3State) (input : GetObjectTaggingInput)
    (bkt : List (GoStr × Nat)) (i : Nat) (o : Object)
    (hb : alookup input.Bucket s.buckets = some bkt)
    (hk : alookup input.Key bkt = some i)
    (hh : alookup i s.heap = some o) :
    (getObjectTagging s input).2 =
      (match parseTagList (splitChar '&' o.Tagging) with
       | .ok tags => .ok { Tag := tags }
       | .error e => .error e) := by
  unfold getObjectTagging
  simp only [hb, hk, hh]
  cases parseTagList (splitChar '&' o.Tagging) <;> rfl

/-- Claim C9 as amended: for a stored object and a tag set whose keys and
values contain neither `&` nor `=`, `PutObjectTagging` followed by
`GetObjectTagging` returns the same single key/value pair when the set is a
singleton, while for two or more tags the write succeeds but the read
fails with the `invalid tagging` error (the writer joins on `,`, the
reader splits on `&`). -/

theorem putGetTagging_roundtrip (s : S3State) (b k : GoStr) (tags : List APITag)
    (bkt : List (GoStr × Nat)) (i : Nat) (o : Object)
    (hclean : ∀ t ∈ tags, tagClean t)
    (hb : alookup b s.buckets = some bkt)
    (hk : alookup k bkt = some i)
    (hh : alookup i s.heap = some o) :
    (tags.length = 1 →
      (getObjectTagging (putObjectTagging s { Bucket := b, Key := k, Tag := tags }).1
        { Bucket := b, Key := k }).2 = .ok { Tag := tags }) ∧
    (2 ≤ tags.length →
      (getObjectTagging (putObjectTagging s { Bucket := b, Key := k, Tag := tags }).1
        { Bucket := b, Key := k }).2 = .error (XXX_TODO "invalid tagging")) := by
  have hput := putObjectTagging_state s { Bucket := b, Key := k, Tag := tags } bkt i o hb hk hh
  have hb' : alookup b ((putObjectTagging s { Bucket := b, Key := k, Tag := tags }).1).buckets =
      some bkt := by
    rw [hput]
    exact hb
  have hh' : alookup i ((putObjectTagging s { Bucket := b, Key := k, Tag := tags }).1).heap =
      some { o with Tagging := joinTags tags } := by
    rw [hput]
    exact alookup_aset_self _ _ _
  have hget := getObjectTagging_eval _ { Bucket := b, Key := k } bkt i _ hb' hk hh'
  rw [hget]
  constructor
  · intro hlen
    obtain ⟨t, rfl⟩ : ∃ t, tags = [t] := by
      cases tags with
      | nil => simp at hlen
      | cons t r =>
        cases r with
        | nil => exact ⟨t, rfl⟩
        | cons t2 r2 => simp at hlen
    have hc := hclean t (by simp)
    have hamp : '&' ∉ joinTags [t] := joinTags_no_amp [t] hclean
    have hsplitAmp : splitChar '&' (joinTags [t]) = [joinTags [t]] :=
      splitChar_of_not_mem hamp
    have hjoin : joinTags [t] = t.Key ++ '=' :: t.Value := rfl
    have hsplitEq : splitChar '=' (joinTags [t]) = [t.Key, t.Value] := by
      rw [hjoin, splitChar_append _ hc.2.1, splitChar_of_not_mem hc.2.2.2]
    simp only [hsplitAmp, parseTagList, hsplitEq]
  · intro hlen
    have hamp := joinTags_no_amp tags hclean
    have hsplitAmp : splitChar '&' (joinTags tags) = [joinTags tags] :=
      splitChar_of_not_mem hamp
    have hcount := joinTags_count_eq tags hclean
    have hlen' : (splitChar '=' (joinTags tags)).length = tags.length + 1 := by
      rw [splitChar_length, hcount]
    rw [hsplitAmp]
    cases hl : splitChar '=' (joinTags tags) with
    | nil =>
      rw [hl] at hlen'
      simp only [List.length_nil] at hlen'
      omega
    | cons a rest =>
      cases rest with
      | nil =>
        rw [hl] at hlen'
        simp only [List.length_cons, List.length_nil] at hlen'
        omega
      | cons a2 rest2 =>
        cases rest2 with
        | nil =>
          rw [hl] at hlen'
          simp only [List.length_cons, List.length_nil] at hlen'
          omega
        | cons a3 rest3 =>
          simp only [parseTagList, hl]

/-- Witness for the amended C9: a clean singleton round-trips, a clean pair
errors on read. -/

theorem putGetTagging_roundtrip_witness :
    (getObjectTagging (putObjectTagging aliasState2
        { Bucket := str "b", Key := str "k",
          Tag := [{ Key := str "x", Value := str "1" }] }).1
      { Bucket := str "b", Key := str "k" }).2 =
      .ok { Tag := [{ Key := str "x", Value := str "1" }] } ∧
    (getObjectTagging (putObjectTagging aliasState2
        { Bucket := str "b", Key := str "k",
          Tag := [{ Key := str "x", Value := str "1" },
                  { Key := str "y", Value := str "2" }] }).1
      { Bucket := str "b", Key := str "k" }).2 =
      .error (XXX_TODO "invalid tagging") :=
  ⟨(putGetTagging_roundtrip aliasState2 (str "b") (str "k")
      [{ Key := str "x", Value := str "1" }] [(str "k", 0)] 0 aliasObject
      (by decide) rfl rfl rfl).1 rfl,
   (putGetTagging_roundtrip aliasState2 (str "b") (str "k")
      [{ Key := str "x", Value := str "1" }, { Key := str "y", Value := str "2" }]
      [(str "k", 0)] 0 aliasObject
      (by decide) rfl rfl rfl).2 (by decide)⟩

/-- A valid part spec is determined by its part number. -/

theorem spec_eq_partSpecOf {parts : List (Int × S3Part)} {spec : APIPart}
    (h : specOK parts spec = true) : spec = partSpecOf parts spec.PartNumber := by
  unfold specOK at h
  unfold partSpecOf
  cases hp : alookup spec.PartNumber parts with
  | none =>
    rw [hp] at h
    exact absurd h (by simp)
  | some p =>
    rw [hp] at h
    have he : spec.ETag = hexEncodeToString p.MD5 := of_decide_eq_true h
    cases spec
    simp only at he
    simp [he]

/-- Two permuted part-spec lists whose members are all valid sort to the
same list: the comparison looks only at part numbers, and valid specs with
equal part numbers are equal. -/

theorem insertionSort_eq_of_perm (parts : List (Int × S3Part))
    (l1 l2 : List APIPart) (hperm : l1.Perm l2)
    (hok : ∀ a ∈ l1, specOK parts a = true) :
    List.insertionSort partLE l1 = List.insertionSort partLE l2 := by
  have hp1 : (List.insertionSort partLE l1).Perm l1 := List.perm_insertionSort partLE l1
  have hp2 : (List.insertionSort partLE l2).Perm l2 := List.perm_insertionSort partLE l2
  have hs1 : List.Sorted partLE (List.insertionSort partLE l1) :=
    List.sorted_insertionSort partLE l1
  have hs2 : List.Sorted partLE (List.insertionSort partLE l2) :=
    List.sorted_insertionSort partLE l2
  have hps : (List.insertionSort partLE l1).Perm (List.insertionSort partLE l2) :=
    hp1.trans (hperm.trans hp2.symm)
  have hm1 : ∀ a ∈ List.insertionSort partLE l1, a = partSpecOf parts a.PartNumber :=
    fun a ha => spec_eq_partSpecOf (hok a (hp1.mem_iff.mp ha))
  have hm2 : ∀ a ∈ List.insertionSort partLE l2, a = partSpecOf parts a.PartNumber :=
    fun a ha =>
      spec_eq_partSpecOf (hok a (hperm.mem_iff.mpr (hp2.mem_iff.mp ha)))
  have hsm1 : List.Sorted (fun a b : Int => a ≤ b)
      ((List.insertionSort partLE l1).map (fun a => a.PartNumber)) :=
    List.pairwise_map.mpr hs1
  have hsm2 : List.Sorted (fun a b : Int => a ≤ b)
      ((List.insertionSort partLE l2).map (fun a => a.PartNumber)) :=
    List.pairwise_map.mpr hs2
  have hkeys : (List.insertionSort partLE l1).map (fun a => a.PartNumber) =
      (List.insertionSort partLE l2).map (fun a => a.PartNumber) :=
    List.eq_of_perm_of_sorted (hps.map _) hsm1 hsm2
  have hrebuild : ∀ (l : List APIPart), (∀ a ∈ l, a = partSpecOf parts a.PartNumber) →
      (l.map (fun a => a.PartNumber)).map (partSpecOf parts) = l := by
    intro l hl
    rw [List.map_map]
    have : ∀ a ∈ l, (partSpecOf parts ∘ fun a => a.PartNumber) a = id a :=
      fun a ha => (hl a ha).symm
    rw [List.map_congr_left this, List.map_id]
  calc List.insertionSort partLE l1
      = ((List.insertionSort partLE l1).map (fun a => a.PartNumber)).map (partSpecOf parts) :=
        (hrebuild _ hm1).symm
    _ = ((List.insertionSort partLE l2).map (fun a => a.PartNumber)).map (partSpecOf parts) := by
        rw [hkeys]
    _ = List.insertionSort partLE l2 := hrebuild _ hm2

/-- Claim C10: when every part spec in the list names an uploaded part and
carries its correct ETag, `CompleteMultipartUpload` produces the same
result — same new state (stored object data) and same output (including
the combined ETag) — for every permutation of the part list, because the
specs are sorted by ascending `PartNumber` before any data is touched. -/

theorem completeMultipartUpload_perm_invariant (md5fn : Bytes → Bytes)
    (s : S3State) (upload : MultipartUpload) (bucket key uploadId : GoStr)
    (l1 l2 : List APIPart)
    (hu : alookup uploadId s.multipartUploads = some upload)
    (hperm : l1.Perm l2)
    (hok : ∀ a ∈ l1, specOK upload.Parts a = true) :
    completeMultipartUpload md5fn s
      { Bucket := bucket, Key := key, UploadId := uploadId, Part := l1 } =
    completeMultipartUpload md5fn s
      { Bucket := bucket, Key := key, UploadId := uploadId, Part := l2 } := by
  unfold completeMultipartUpload
  rw [insertionSort_eq_of_perm upload.Parts l1 l2 hperm hok]

/-- Witness for C10: a two-part upload completed with the part list given
in either order yields identical state and output. -/

theorem completeMultipartUpload_perm_invariant_witness :
    completeMultipartUpload identityMD5 permState
      { Bucket := str "b", Key := str "k", UploadId := str "u",
        Part := [permSpec2, permSpec1] } =
    completeMultipartUpload identityMD5 permState
      { Bucket := str "b", Key := str "k", UploadId := str "u",
        Part := [permSpec1, permSpec2] } :=
  completeMultipartUpload_perm_invariant identityMD5 permState permUpload
    (str "b") (str "k") (str "u") [permSpec2, permSpec1] [permSpec1, permSpec2]
    rfl (List.Perm.swap permSpec1 permSpec2 []) (by decide)
